import Mathlib

/-!
Shallow embedding of the table transformation in `src/table-script.tsx`.

JS numbers are modelled exactly as rationals (`ℚ`); the JS `NaN` value is
modelled by `none` in `Option ℚ`.  Every numeric example appearing in the
development has been checked to coincide with IEEE-double evaluation of the
original code.  JS builtins (`parseFloat`, `Number.prototype.toFixed`,
`String.prototype.trim`) and the `dayjs` month arithmetic used by the script
are modelled after their documented (ECMA-262 / dayjs) behaviour on the
inputs the script feeds them; `"Infinity"` literals and non-ASCII whitespace
are outside the modelled fragment.
-/

/-- JS `a || b` on two optionally-present objects: an object is truthy iff
present, so the result is `a` when present, else `b`. -/
def jsOrObj {α : Type} (a b : Option α) : Option α :=
  match a with
  | some x => some x
  | none => b

/-- JS `a || b` where `a` is an optionally-present string and `b` a string:
`undefined`/`null` and `""` are falsy. -/
def jsOrString (v : Option String) (dflt : String) : String :=
  match v with
  | some s => if s = "" then dflt else s
  | none => dflt

/-- Numeric value of a list of decimal digit characters. -/
def digitsToNat (ds : List Char) : Nat :=
  ds.foldl (fun acc c => acc * 10 + (c.toNat - 48)) 0

/-- The decimal digit character for `n % 10`. -/
def natDigitChar (n : Nat) : Char :=
  match n % 10 with
  | 0 => '0' | 1 => '1' | 2 => '2' | 3 => '3' | 4 => '4'
  | 5 => '5' | 6 => '6' | 7 => '7' | 8 => '8' | _ => '9'

/-- Decimal digits of `n`, most significant first; `fuel` bounds recursion
depth (any `fuel ≥` digit count of `n` gives the exact digits). -/
def natDigitsAux : Nat → Nat → List Char
  | 0, _ => []
  | fuel + 1, n =>
    if n < 10 then [natDigitChar n]
    else natDigitsAux fuel (n / 10) ++ [natDigitChar n]

/-- Decimal representation of a natural number (JS integer-to-string). -/
def natRepr (n : Nat) : String :=
  ⟨natDigitsAux (n + 1) n⟩

/-- Exactly `k` decimal digits of `n` (left-padded with `'0'`), most
significant first; used for the fraction part of `toFixed`. -/
def fracDigitsChars : Nat → Nat → List Char
  | _, 0 => []
  | n, k + 1 => natDigitChar (n / 10 ^ k) :: fracDigitsChars (n % 10 ^ k) k

/-- Left-pad a string with `'0'` to length `n`. -/
def padZeros (s : String) (n : Nat) : String :=
  ⟨List.replicate (n - s.data.length) '0'⟩ ++ s

/-- Two-digit zero-padded decimal rendering. -/
def pad2 (n : Nat) : String := padZeros (natRepr n) 2

/-- Four-digit zero-padded decimal rendering. -/
def pad4 (n : Nat) : String := padZeros (natRepr n) 4

/-- JS `String.prototype.trim` (ASCII whitespace fragment). -/
def jsTrim (s : String) : String :=
  ⟨(((s.data.dropWhile Char.isWhitespace).reverse.dropWhile Char.isWhitespace).reverse)⟩

/-- Exponent part accepted by JS `parseFloat` after an `e`/`E`: optional
sign then digits; an empty digit run contributes exponent `0` (the exponent
marker is then trailing garbage, which `parseFloat` ignores). -/
def parseExpDigits (cs : List Char) : Int :=
  let negE : Bool := match cs with | '-' :: _ => true | _ => false
  let cs1 := match cs with
    | '-' :: rest => rest
    | '+' :: rest => rest
    | _ => cs
  let ds := cs1.takeWhile Char.isDigit
  if ds.isEmpty then 0
  else if negE then -(digitsToNat ds : Int) else (digitsToNat ds : Int)

/-- JS `parseFloat`: skip leading whitespace, optional sign, longest prefix
`digits[.digits][(e|E)[sign]digits]`; `none` models `NaN` (no parseable
number prefix).  The value `sign * (int.frac) * 10 ^ exp` is assembled
with `mkRat` (exactly, as a rational). -/
def parseFloat (s : String) : Option ℚ :=
  let cs := s.data.dropWhile Char.isWhitespace
  let signNeg : Bool := match cs with | '-' :: _ => true | _ => false
  let cs1 := match cs with
    | '-' :: rest => rest
    | '+' :: rest => rest
    | _ => cs
  let intDigits := cs1.takeWhile Char.isDigit
  let cs2 := cs1.dropWhile Char.isDigit
  let fracDigits := match cs2 with
    | '.' :: rest => rest.takeWhile Char.isDigit
    | _ => []
  let cs3 := match cs2 with
    | '.' :: rest => rest.dropWhile Char.isDigit
    | _ => cs2
  if intDigits.isEmpty && fracDigits.isEmpty then none
  else
    let base : Nat := 10 ^ fracDigits.length
    let mag : Nat := digitsToNat intDigits * base + digitsToNat fracDigits
    let mantNum : Int := if signNeg then -(mag : Int) else (mag : Int)
    let expVal : Int := match cs3 with
      | 'e' :: rest => parseExpDigits rest
      | 'E' :: rest => parseExpDigits rest
      | _ => 0
    if 0 ≤ expVal then some (mkRat (mantNum * 10 ^ expVal.toNat) base)
    else some (mkRat mantNum (base * 10 ^ (-expVal).toNat))

/-- Exact JS multiplication of a number by a natural constant. -/
def qMulNat (q : ℚ) (k : Nat) : ℚ := mkRat (q.num * (k : Int)) q.den

/-- Exact JS subtraction of two numbers. -/
def qSub (a b : ℚ) : ℚ :=
  mkRat (a.num * (b.den : Int) - b.num * (a.den : Int)) (a.den * b.den)

/-- `⌊(num / den) * 10 ^ f + 1 / 2⌋` for a nonnegative fraction `num / den`,
computed with natural-number division: the integer nearest to
`(num / den) * 10 ^ f`, ties to the larger (ECMA-262 `toFixed` choice). -/
def halfUpMag (num den : Nat) (f : Nat) : Nat :=
  (2 * num * 10 ^ f + den) / (2 * den)

/-- Nearest integer to `x`, ties resolved as JS `toFixed` resolves them:
on the magnitude, half rounds up (so away from zero overall). -/
def jsRound (x : ℚ) : ℤ :=
  if x < 0 then -(halfUpMag x.num.natAbs x.den 0 : ℤ) else (halfUpMag x.num.natAbs x.den 0 : ℤ)

/-- ECMA-262 `Number.prototype.toFixed` on a (finite) number: the sign is
taken first, then the magnitude `|x| = x.num.natAbs / x.den` is rendered
with exactly `f` fraction digits, the integer nearest to
`magnitude * 10 ^ f` being chosen (ties to the larger integer).  Note a
negative value rounding to zero renders as `"-0"`, as in JS. -/
def toFixedQ (x : ℚ) (f : Nat) : String :=
  let sgn := if x < 0 then "-" else ""
  let n : Nat := halfUpMag x.num.natAbs x.den f
  if f = 0 then sgn ++ natRepr n
  else sgn ++ natRepr (n / 10 ^ f) ++ "." ++ ⟨fracDigitsChars (n % 10 ^ f) f⟩

/-- `toFixed` on a possibly-`NaN` JS number. -/
def jsToFixed : Option ℚ → Nat → String
  | none, _ => "NaN"
  | some x, f => toFixedQ x f

/-- JS subtraction with `NaN` propagation. -/
def jsSub : Option ℚ → Option ℚ → Option ℚ
  | some a, some b => some (qSub a b)
  | _, _ => none

/-- A `dayjs` date as the script uses it: a year and a 0-based month index. -/
structure DayjsDate where
  year : ℤ
  monthIdx : Nat
deriving DecidableEq, Repr

/-- `dayjs(s)` on the `"YYYY-MM"` strings the script feeds it: four year
digits, a dash, a two-digit month `01`–`12`; anything else is an invalid
date (`none`). -/
def dayjsParse (s : String) : Option DayjsDate :=
  match s.data with
  | [y1, y2, y3, y4, '-', m1, m2] =>
    if y1.isDigit && y2.isDigit && y3.isDigit && y4.isDigit && m1.isDigit && m2.isDigit then
      let m := digitsToNat [m1, m2]
      if 1 ≤ m ∧ m ≤ 12 then some ⟨(digitsToNat [y1, y2, y3, y4] : Int), m - 1⟩
      else none
    else none
  | _ => none

/-- `dayjs` `.subtract(k, "month")`: arithmetic on the total month count,
with floor division carrying into the year. -/
def DayjsDate.subtractMonths (d : DayjsDate) (k : Nat) : DayjsDate :=
  let t : ℤ := d.year * 12 + (d.monthIdx : ℤ) - (k : ℤ)
  ⟨t / 12, (t % 12).toNat⟩

/-- `dayjs` `.format("YYYY-MM")`. -/
def dayjsFormatYYYYMM (d : DayjsDate) : String :=
  (if d.year < 0 then "-" ++ pad4 d.year.natAbs else pad4 d.year.toNat)
    ++ "-" ++ pad2 (d.monthIdx + 1)

/-- The composite `dayjs(m).subtract(1, "month").format("YYYY-MM")` from
`calculateNetEarningsPrevMonth` (source lines 113–116). -/
def subtractOneMonthFormatted (s : String) : String :=
  match dayjsParse s with
  | some d => dayjsFormatYYYYMM (d.subtractMonths 1)
  | none => "Invalid Date"

/-- One `{month, costs}` entry of a monthly financial series (`types.ts`
`MonthlyFinancialEntry`); either field may be absent/null. -/
structure MonthlyFinancialEntry where
  month : Option String
  costs : Option String
deriving DecidableEq, Repr

/-- One entry of `lastThreeMonthsIndividually`. -/
structure UtilisationMonthEntry where
  utilisationRate : Option String
deriving DecidableEq, Repr

/-- The `workforceUtilisation` sub-object. -/
structure WorkforceUtilisation where
  utilisationRateLastTwelveMonths : Option String
  utilisationRateYearToDate : Option String
  lastThreeMonthsIndividually : Option (List UtilisationMonthEntry)
deriving DecidableEq, Repr

/-- The `statusAggregation` sub-object. -/
structure StatusAggregation where
  status : Option String
  monthlySalary : Option String
deriving DecidableEq, Repr

/-- The `costsByMonth` sub-object, which itself holds the employees series
`potentialEarningsByMonth` or the externals series `costsByMonth`. -/
structure CostsByMonth where
  potentialEarningsByMonth : Option (List MonthlyFinancialEntry)
  costsByMonth : Option (List MonthlyFinancialEntry)
deriving DecidableEq, Repr

/-- The person payload shared by `Employee` and `ExternalEmployee`; every
field the script dereferences is optionally present. -/
structure PersonData where
  name : Option String
  status : Option String
  statusAggregation : Option StatusAggregation
  workforceUtilisation : Option WorkforceUtilisation
  costsByMonth : Option CostsByMonth
deriving DecidableEq, Repr

/-- One raw source record: at most one of `employees` / `externals`. -/
structure SourceDataRow where
  employees : Option PersonData
  externals : Option PersonData
deriving DecidableEq, Repr

/-- One output table row (`TableDataType`), all display strings. -/
structure TableDataType where
  person : String
  past12Months : String
  y2d : String
  june : String
  july : String
  august : String
  netEarningsPrevMonth : String
deriving DecidableEq, Repr

/-- `formatPercentage` (source lines 36–46). -/
def formatPercentage (value : Option String) : String :=
  match value with
  | none => "N/A"
  | some s =>
    match parseFloat s with
    | none => "-"
    | some numValue => toFixedQ (qMulNat numValue 100) 0 ++ "%"

/-- `parseSafeFloat` (source lines 55–68). -/
def parseSafeFloat (value : Option String) : ℚ :=
  match value with
  | none => 0
  | some s =>
    if s = "null" ∨ jsTrim s = "" then 0
    else
      match parseFloat s with
      | none => 0
      | some num => num

/-- The `earningsDataArray` selection in `calculateNetEarningsPrevMonth`:
`costsByMonth.potentialEarningsByMonth` when present (employees), else
`costsByMonth.costsByMonth` (externals), else empty.  A present-but-empty
array is truthy in JS and is selected. -/
def earningsDataArrayOf (personData : Option PersonData) : List MonthlyFinancialEntry :=
  let costsByMonthData := personData.bind PersonData.costsByMonth
  match costsByMonthData.bind CostsByMonth.potentialEarningsByMonth with
  | some arr => arr
  | none =>
    match costsByMonthData.bind CostsByMonth.costsByMonth with
    | some arr => arr
    | none => []

/-- `calculateNetEarningsPrevMonth` (source lines 76–137).  The TS
parameter type is non-optional but the body only uses optional chaining on
it, so the embedding takes an `Option PersonData`.  Note the body parses
the previous month's `costs` with bare `parseFloat` (its truthiness guard
already turned `null`/`""` into `0`), so a present, non-empty, unparseable
`costs` string produces `NaN`. -/
def calculateNetEarningsPrevMonth (personData : Option PersonData) : String :=
  let earningsDataArray := earningsDataArrayOf personData
  let monthlySalary :=
    parseSafeFloat ((personData.bind PersonData.statusAggregation).bind StatusAggregation.monthlySalary)
  if earningsDataArray.length = 0 then "- EUR"
  else
    match earningsDataArray.getLast? with
    | none => "- EUR"
    | some latestDataMonthEntry =>
      match latestDataMonthEntry.month with
      | none => "- EUR"
      | some refMonth =>
        if refMonth = "" then "- EUR"
        else
          let previousMonthFormatted := subtractOneMonthFormatted refMonth
          let prevMonthEntry :=
            earningsDataArray.find? fun entry => entry.month == some previousMonthFormatted
          let earningsPrevMonth : Option ℚ :=
            match prevMonthEntry with
            | some entry =>
              match entry.costs with
              | some c => if c = "" then some 0 else parseFloat c
              | none => some 0
            | none => some 0
          jsToFixed (jsSub earningsPrevMonth (some monthlySalary)) 2 ++ " EUR"

/-- The `isActive` test inside the `map` callback (source lines 150–157):
nested `statusAggregation.status` or top-level `status` equals `"active"`. -/
def isActiveRow (dataRow : SourceDataRow) : Bool :=
  let personData := jsOrObj dataRow.employees dataRow.externals
  (((personData.bind PersonData.statusAggregation).bind StatusAggregation.status) == some "active")
    || ((personData.bind PersonData.status) == some "active")

/-- `lastThreeMonths` extraction (source line 173): the
`lastThreeMonthsIndividually` array, defaulting to `[]`. -/
def lastThreeOf (dataRow : SourceDataRow) : List UtilisationMonthEntry :=
  (((jsOrObj dataRow.employees dataRow.externals).bind PersonData.workforceUtilisation).bind
    WorkforceUtilisation.lastThreeMonthsIndividually).getD []

/-- The `map` callback of the pipeline (source lines 146–199): `null` for
inactive rows, else the built table row. -/
def processRow (dataRow : SourceDataRow) : Option TableDataType :=
  let personData := jsOrObj dataRow.employees dataRow.externals
  if !isActiveRow dataRow then none
  else
    some
      { person := jsOrString (personData.bind PersonData.name) ""
        past12Months := formatPercentage
          ((personData.bind PersonData.workforceUtilisation).bind
            WorkforceUtilisation.utilisationRateLastTwelveMonths)
        y2d := formatPercentage
          ((personData.bind PersonData.workforceUtilisation).bind
            WorkforceUtilisation.utilisationRateYearToDate)
        june := formatPercentage
          (((lastThreeOf dataRow).get? 2).bind UtilisationMonthEntry.utilisationRate)
        july := formatPercentage
          (((lastThreeOf dataRow).get? 1).bind UtilisationMonthEntry.utilisationRate)
        august := formatPercentage
          (((lastThreeOf dataRow).get? 0).bind UtilisationMonthEntry.utilisationRate)
        netEarningsPrevMonth := calculateNetEarningsPrevMonth personData }

/-- The full pipeline building `tableData` (source lines 141–201):
filter to rows holding an `employees` or `externals` object, map to
row-or-null, drop the nulls. -/
def tableData (sourceData : List SourceDataRow) : List TableDataType :=
  ((sourceData.filter fun dataRow =>
      (jsOrObj dataRow.employees dataRow.externals).isSome).map processRow).filterMap id

/-- Specification-side predicate: `l`'s last entry lacks a `month` value
(or `l` is empty); mirrors the claim wording "the series is empty, or its
last entry lacks a `month` value", with "lacks" read as JS falsiness
(absent, `null`, or `""`), as the guard on source line 110 does. -/
def lastEntryLacksMonth (l : List MonthlyFinancialEntry) : Bool :=
  match l.getLast? with
  | none => true
  | some e =>
    match e.month with
    | none => true
    | some m => m == ""

/-- Specification-side predicate on character lists: optional digits, then
`'.'`, two digits, then `" EUR"`, with at least one integer digit. -/
def twoDecEurChars (l : List Char) : Bool :=
  let ds := l.takeWhile Char.isDigit
  match l.dropWhile Char.isDigit with
  | c0 :: a :: b :: rest =>
    !ds.isEmpty && (c0 == '.') && a.isDigit && b.isDigit && (rest == [' ', 'E', 'U', 'R'])
  | _ => false

/-- Specification-side predicate: `s` is a decimal numeral with exactly two
fraction digits (optionally `'-'`-signed) followed by `" EUR"`. -/
def isTwoDecimalEur (s : String) : Bool :=
  match s.data with
  | [] => false
  | c :: rest => if c = '-' then twoDecEurChars rest else twoDecEurChars (c :: rest)

/-- Concrete record for C1: previous-month entry present with the literal
string `"null"` as its `costs`. -/
def nullCostsPerson : PersonData :=
  { name := some "A"
    status := some "active"
    statusAggregation := none
    workforceUtilisation := none
    costsByMonth := some
      { potentialEarningsByMonth := some
          [{ month := some "2024-05", costs := some "null" },
           { month := some "2024-06", costs := some "1200" }]
        costsByMonth := none } }

/-- Concrete record for C6: previous-month entry present with an
unparseable non-empty `costs` string. -/
def abcCostsPerson : PersonData :=
  { name := some "B"
    status := some "active"
    statusAggregation := none
    workforceUtilisation := none
    costsByMonth := some
      { potentialEarningsByMonth := some
          [{ month := some "2024-06", costs := some "abc" },
           { month := some "2024-07", costs := some "500" }]
        costsByMonth := none } }

/-- Concrete well-behaved person: the spec's running example (earnings
series 2024-05/2024-06, salary 800). -/
def goodPerson : PersonData :=
  { name := some "C"
    status := some "active"
    statusAggregation := some { status := none, monthlySalary := some "800" }
    workforceUtilisation := none
    costsByMonth := some
      { potentialEarningsByMonth := some
          [{ month := some "2024-05", costs := some "1000" },
           { month := some "2024-06", costs := some "1200" }]
        costsByMonth := none } }

/-- Concrete record for C3's counterexample: nested status `"inactive"`,
top-level status `"active"`. -/
def nestedInactivePerson : PersonData :=
  { name := some "D"
    status := some "active"
    statusAggregation := some { status := some "inactive", monthlySalary := none }
    workforceUtilisation := none
    costsByMonth := none }

/-- Source row wrapping `nestedInactivePerson` as an employee. -/
def nestedInactiveRec : SourceDataRow :=
  { employees := some nestedInactivePerson, externals := none }

/-- Concrete record for C3's witness: no nested status, top-level
status `"active"`. -/
def topActivePerson : PersonData :=
  { name := some "E"
    status := some "active"
    statusAggregation := none
    workforceUtilisation := none
    costsByMonth := none }

/-- Source row wrapping `topActivePerson` as an external. -/
def topActiveRec : SourceDataRow :=
  { employees := none, externals := some topActivePerson }

/-- Concrete record for C7: `lastThreeMonthsIndividually` rates
0.9 / 0.8 / 0.7, newest first. -/
def ratesPerson : PersonData :=
  { name := none
    status := some "active"
    statusAggregation := none
    workforceUtilisation := some
      { utilisationRateLastTwelveMonths := none
        utilisationRateYearToDate := none
        lastThreeMonthsIndividually := some
          [{ utilisationRate := some "0.9" },
           { utilisationRate := some "0.8" },
           { utilisationRate := some "0.7" }] }
    costsByMonth := none }

/-- Source row wrapping `ratesPerson` as an employee. -/
def ratesRec : SourceDataRow :=
  { employees := some ratesPerson, externals := none }

/-- The table row produced for `ratesRec`. -/
def ratesRow : TableDataType :=
  { person := ""
    past12Months := "N/A"
    y2d := "N/A"
    june := "70%"
    july := "80%"
    august := "90%"
    netEarningsPrevMonth := "- EUR" }

theorem strMk_data (l : List Char) : (String.mk l).data = l := rfl

theorem natDigitChar_isDigit (n : Nat) : (natDigitChar n).isDigit = true := by
  unfold natDigitChar
  split <;> decide

theorem natDigitsAux_digits :
    ∀ (fuel n : Nat) (c : Char), c ∈ natDigitsAux fuel n → c.isDigit = true := by
  intro fuel
  induction fuel with
  | zero => intro n c hc; simp [natDigitsAux] at hc
  | succ fuel ih =>
    intro n c hc
    rw [natDigitsAux] at hc
    split at hc
    · rcases List.mem_singleton.mp hc with rfl
      exact natDigitChar_isDigit n
    · rcases List.mem_append.mp hc with h | h
      · exact ih _ _ h
      · rcases List.mem_singleton.mp h with rfl
        exact natDigitChar_isDigit n

theorem natDigitsAux_ne_nil (fuel n : Nat) : natDigitsAux (fuel + 1) n ≠ [] := by
  rw [natDigitsAux]
  split
  · simp
  · intro h
    rcases List.append_eq_nil.mp h with ⟨-, h2⟩
    simp at h2

theorem natRepr_digits (n : Nat) : ∀ c ∈ (natRepr n).data, c.isDigit = true := by
  intro c hc
  exact natDigitsAux_digits (n + 1) n c hc

theorem natRepr_ne_nil (n : Nat) : (natRepr n).data ≠ [] :=
  natDigitsAux_ne_nil n n

theorem digits_takeWhile {l : List Char} (t : List Char)
    (hl : ∀ c ∈ l, Char.isDigit c = true) :
    (l ++ '.' :: t).takeWhile Char.isDigit = l ∧
      (l ++ '.' :: t).dropWhile Char.isDigit = '.' :: t := by
  induction l with
  | nil => simp [List.takeWhile_cons, List.dropWhile_cons]
  | cons c cs ih =>
    have hc : Char.isDigit c = true := hl c (List.mem_cons_self c cs)
    have ihs := ih fun d hd => hl d (List.mem_cons_of_mem c hd)
    simp [List.takeWhile_cons, List.dropWhile_cons, hc, ihs.1, ihs.2]

theorem dropWhile_head_false {α : Type} (p : α → Bool) :
    ∀ (l : List α) (c : α) (t : List α), l.dropWhile p = c :: t → p c = false := by
  intro l
  induction l with
  | nil => intro c t h; simp [List.dropWhile] at h
  | cons a l ih =>
    intro c t h
    rw [List.dropWhile_cons] at h
    by_cases ha : p a = true
    · rw [if_pos ha] at h; exact ih c t h
    · rw [if_neg ha] at h
      rcases h with ⟨rfl, -⟩
      exact Bool.not_eq_true _ |>.mp ha

theorem qMulNat_eq (q : ℚ) (k : Nat) : qMulNat q k = q * (k : ℚ) := by
  rw [qMulNat, Rat.mkRat_eq_divInt, Rat.divInt_eq_div]
  push_cast
  rw [mul_div_right_comm, Rat.num_div_den]

theorem halfUpMag_eq (x : ℚ) (f : Nat) :
    ((halfUpMag x.num.natAbs x.den f : Nat) : ℤ) = ⌊|x| * 10 ^ f + 1 / 2⌋ := by
  have hbQ : (0 : ℚ) < (x.den : ℚ) := by
    exact_mod_cast x.den_pos
  have hne : (x.den : ℚ) ≠ 0 := ne_of_gt hbQ
  have habs : |x| = ((x.num.natAbs : Nat) : ℚ) / (x.den : ℚ) := by
    conv_lhs => rw [← Rat.num_div_den x]
    rw [abs_div, abs_of_pos hbQ, Int.cast_natAbs, Int.cast_abs]
  have hb2 : 0 < 2 * x.den := by positivity
  have hkey := Nat.div_add_mod (2 * x.num.natAbs * 10 ^ f + x.den) (2 * x.den)
  have hmod := Nat.mod_lt (2 * x.num.natAbs * 10 ^ f + x.den) hb2
  have hr : |x| * 10 ^ f + 1 / 2 =
      ((2 * x.num.natAbs * 10 ^ f + x.den : Nat) : ℚ) / ((2 * x.den : Nat) : ℚ) := by
    rw [habs]
    push_cast
    field_simp
    ring
  rw [hr]
  symm
  rw [Int.floor_eq_iff]
  have h1 : halfUpMag x.num.natAbs x.den f * (2 * x.den) ≤
      2 * x.num.natAbs * 10 ^ f + x.den := Nat.div_mul_le_self _ _
  have h2 : 2 * x.num.natAbs * 10 ^ f + x.den <
      (halfUpMag x.num.natAbs x.den f + 1) * (2 * x.den) := by
    have hNdef : halfUpMag x.num.natAbs x.den f
        = (2 * x.num.natAbs * 10 ^ f + x.den) / (2 * x.den) := rfl
    calc 2 * x.num.natAbs * 10 ^ f + x.den
        = 2 * x.den * ((2 * x.num.natAbs * 10 ^ f + x.den) / (2 * x.den))
            + (2 * x.num.natAbs * 10 ^ f + x.den) % (2 * x.den) := hkey.symm
      _ < 2 * x.den * ((2 * x.num.natAbs * 10 ^ f + x.den) / (2 * x.den)) + 2 * x.den :=
          Nat.add_lt_add_left hmod _
      _ = ((2 * x.num.natAbs * 10 ^ f + x.den) / (2 * x.den) + 1) * (2 * x.den) := by ring
      _ = (halfUpMag x.num.natAbs x.den f + 1) * (2 * x.den) := by rw [hNdef]
  constructor
  · rw [le_div_iff₀ (by positivity)]
    push_cast
    exact_mod_cast Nat.cast_le.mpr h1
  · rw [div_lt_iff₀ (by positivity)]
    push_cast
    exact_mod_cast Nat.cast_lt.mpr h2

theorem jsRound_natAbs (x : ℚ) :
    (jsRound x).natAbs = halfUpMag x.num.natAbs x.den 0 := by
  unfold jsRound
  split <;> simp

theorem jsRound_nearest (x : ℚ) : |x - (jsRound x : ℚ)| ≤ 1 / 2 := by
  have h0 := halfUpMag_eq x 0
  rw [pow_zero, mul_one] at h0
  have hfl := Int.floor_le (|x| + 1 / 2)
  have hfg := Int.lt_floor_add_one (|x| + 1 / 2)
  rw [← h0] at hfl hfg
  push_cast at hfl hfg
  unfold jsRound
  split
  case isTrue hx =>
    rw [abs_of_neg hx] at hfl hfg
    rw [abs_le]
    push_cast
    constructor <;> linarith
  case isFalse hx =>
    rw [abs_of_nonneg (not_lt.mp hx)] at hfl hfg
    rw [abs_le]
    push_cast
    constructor <;> linarith

theorem toFixedQ_zero_eq (x : ℚ) :
    toFixedQ x 0 = (if x < 0 then "-" else "") ++ natRepr (jsRound x).natAbs := by
  rw [jsRound_natAbs]
  simp [toFixedQ]

theorem fracDigitsChars_two (m : Nat) :
    fracDigitsChars m 2 = [natDigitChar (m / 10), natDigitChar (m % 10)] := by
  simp [fracDigitsChars, Nat.div_one]

theorem twoDecEurChars_of (ds : List Char) (d1 d2 : Char)
    (hds : ds ≠ []) (hd : ∀ c ∈ ds, c.isDigit = true)
    (h1 : d1.isDigit = true) (h2 : d2.isDigit = true) :
    twoDecEurChars (ds ++ '.' :: d1 :: d2 :: [' ', 'E', 'U', 'R']) = true := by
  have htw := digits_takeWhile (d1 :: d2 :: [' ', 'E', 'U', 'R']) hd
  simp only [twoDecEurChars, htw.1, htw.2]
  simp [hds, h1, h2]

theorem toFixedQ_two_eq (x : ℚ) :
    toFixedQ x 2 = (if x < 0 then "-" else "")
      ++ natRepr (halfUpMag x.num.natAbs x.den 2 / 10 ^ 2) ++ "."
      ++ ⟨[natDigitChar (halfUpMag x.num.natAbs x.den 2 % 10 ^ 2 / 10),
           natDigitChar (halfUpMag x.num.natAbs x.den 2 % 10 ^ 2 % 10)]⟩ := by
  simp [toFixedQ, fracDigitsChars_two]

theorem isTwoDecimalEur_toFixedQ (x : ℚ) :
    isTwoDecimalEur (toFixedQ x 2 ++ " EUR") = true := by
  have hip := natRepr_ne_nil (halfUpMag x.num.natAbs x.den 2 / 10 ^ 2)
  have hipd := natRepr_digits (halfUpMag x.num.natAbs x.den 2 / 10 ^ 2)
  by_cases hx : x < 0
  · have hdata : (toFixedQ x 2 ++ " EUR").data
        = '-' :: ((natRepr (halfUpMag x.num.natAbs x.den 2 / 10 ^ 2)).data
            ++ '.' :: natDigitChar (halfUpMag x.num.natAbs x.den 2 % 10 ^ 2 / 10)
            :: natDigitChar (halfUpMag x.num.natAbs x.den 2 % 10 ^ 2 % 10)
            :: [' ', 'E', 'U', 'R']) := by
      rw [toFixedQ_two_eq, if_pos hx]
      simp only [String.data_append, List.append_assoc]
      rfl
    rw [isTwoDecimalEur, hdata]
    simp only [if_pos rfl]
    exact twoDecEurChars_of _ _ _ hip hipd (natDigitChar_isDigit _) (natDigitChar_isDigit _)
  · obtain ⟨c, cs, hcc⟩ : ∃ c cs,
        (natRepr (halfUpMag x.num.natAbs x.den 2 / 10 ^ 2)).data = c :: cs := by
      cases hc : (natRepr (halfUpMag x.num.natAbs x.den 2 / 10 ^ 2)).data with
      | nil => exact absurd hc hip
      | cons c cs => exact ⟨c, cs, rfl⟩
    have hcdig : c.isDigit = true := hipd c (by rw [hcc]; exact List.mem_cons_self c cs)
    have hcne : ¬(c = '-') := by
      intro heq
      rw [heq] at hcdig
      exact absurd hcdig (by decide)
    have hdata : (toFixedQ x 2 ++ " EUR").data
        = c :: (cs ++ '.' :: natDigitChar (halfUpMag x.num.natAbs x.den 2 % 10 ^ 2 / 10)
            :: natDigitChar (halfUpMag x.num.natAbs x.den 2 % 10 ^ 2 % 10)
            :: [' ', 'E', 'U', 'R']) := by
      rw [toFixedQ_two_eq, if_neg hx]
      simp only [String.data_append, List.append_assoc]
      rw [hcc]
      rfl
    rw [isTwoDecimalEur, hdata]
    simp only [if_neg hcne]
    have hsplit : c :: (cs ++ '.' :: natDigitChar (halfUpMag x.num.natAbs x.den 2 % 10 ^ 2 / 10)
            :: natDigitChar (halfUpMag x.num.natAbs x.den 2 % 10 ^ 2 % 10)
            :: [' ', 'E', 'U', 'R'])
        = (c :: cs) ++ '.' :: natDigitChar (halfUpMag x.num.natAbs x.den 2 % 10 ^ 2 / 10)
            :: natDigitChar (halfUpMag x.num.natAbs x.den 2 % 10 ^ 2 % 10)
            :: [' ', 'E', 'U', 'R'] := rfl
    rw [hsplit]
    refine twoDecEurChars_of _ _ _ (by simp) ?_ (natDigitChar_isDigit _) (natDigitChar_isDigit _)
    intro d hd
    exact hipd d (by rw [hcc]; exact hd)

theorem jsToFixed_two_append_ne (v : Option ℚ) : jsToFixed v 2 ++ " EUR" ≠ "- EUR" := by
  cases v with
  | none => decide
  | some x =>
    intro h
    have h2 := isTwoDecimalEur_toFixedQ x
    have hx : jsToFixed (some x) 2 = toFixedQ x 2 := rfl
    rw [hx] at h
    rw [h] at h2
    exact absurd h2 (by decide)

theorem parseFloat_of_trim_empty (s : String) (h : jsTrim s = "") : parseFloat s = none := by
  have hdata : ((s.data.dropWhile Char.isWhitespace).reverse.dropWhile
      Char.isWhitespace).reverse = [] := by
    have h2 := congrArg String.data h
    simpa [jsTrim, strMk_data] using h2
  have h2 : (s.data.dropWhile Char.isWhitespace).reverse.dropWhile Char.isWhitespace = [] :=
    List.reverse_eq_nil_iff.mp hdata
  have h3 := List.dropWhile_eq_nil_iff.mp h2
  have h4 : s.data.dropWhile Char.isWhitespace = [] := by
    cases hcase : s.data.dropWhile Char.isWhitespace with
    | nil => rfl
    | cons c t =>
      have hcw : Char.isWhitespace c = false := dropWhile_head_false _ _ _ _ hcase
      have hmem : c ∈ (s.data.dropWhile Char.isWhitespace).reverse := by
        rw [hcase]; simp
      have := h3 c hmem
      rw [this] at hcw
      cases hcw
  simp [parseFloat, h4]

theorem calc_cases (p : Option PersonData) :
    (calculateNetEarningsPrevMonth p = "- EUR" ∧
      lastEntryLacksMonth (earningsDataArrayOf p) = true) ∨
    ((∃ v, calculateNetEarningsPrevMonth p = jsToFixed v 2 ++ " EUR") ∧
      lastEntryLacksMonth (earningsDataArrayOf p) = false) := by
  by_cases hlen : (earningsDataArrayOf p).length = 0
  · left
    have hnil : earningsDataArrayOf p = [] := List.length_eq_zero.mp hlen
    constructor
    · simp [calculateNetEarningsPrevMonth, hlen]
    · rw [hnil]; rfl
  · obtain ⟨e, hlast⟩ : ∃ e, (earningsDataArrayOf p).getLast? = some e := by
      have hne : earningsDataArrayOf p ≠ [] := fun h => hlen (by rw [h]; rfl)
      cases hg : (earningsDataArrayOf p).getLast? with
      | none => exact absurd (List.getLast?_eq_none_iff.mp hg) hne
      | some e => exact ⟨e, rfl⟩
    cases hm : e.month with
    | none =>
      left
      constructor
      · simp [calculateNetEarningsPrevMonth, hlen, hlast, hm]
      · simp [lastEntryLacksMonth, hlast, hm]
    | some m =>
      by_cases hms : m = ""
      · left
        constructor
        · simp [calculateNetEarningsPrevMonth, hlen, hlast, hm, hms]
        · simp [lastEntryLacksMonth, hlast, hm, hms]
      · right
        constructor
        · simp only [calculateNetEarningsPrevMonth, if_neg hlen, hlast, hm, if_neg hms]
          exact ⟨_, rfl⟩
        · simp [lastEntryLacksMonth, hlast, hm, hms]

theorem processRow_isSome (r : SourceDataRow) : (processRow r).isSome = isActiveRow r := by
  unfold processRow
  cases h : isActiveRow r <;> simp [h]

theorem tableData_nil : tableData [] = [] := rfl

theorem tableData_cons (r : SourceDataRow) (rest : List SourceDataRow) :
    tableData (r :: rest) =
      (if (jsOrObj r.employees r.externals).isSome then (processRow r).toList else [])
        ++ tableData rest := by
  unfold tableData
  rw [List.filter_cons]
  by_cases h : (jsOrObj r.employees r.externals).isSome
  · rw [if_pos (by exact_mod_cast h), if_pos h]
    cases hpr : processRow r <;> simp [hpr]
  · rw [if_neg (by simpa using h), if_neg h]
    simp

theorem jsOrObj_isSome {α : Type} (a b : Option α) :
    (jsOrObj a b).isSome = (a.isSome || b.isSome) := by
  cases a <;> simp [jsOrObj]

theorem isActive_hasPerson (r : SourceDataRow) (h : isActiveRow r = true) :
    (jsOrObj r.employees r.externals).isSome = true := by
  cases hj : jsOrObj r.employees r.externals with
  | some p => rfl
  | none =>
    simp only [isActiveRow, hj] at h
    simp at h

/-- C1: the code evaluated at a previous-month entry whose `costs` is the
literal string `"null"`: the result is `"NaN EUR"`, because the `costs`
value is parsed with bare `parseFloat` rather than the safe parser, even
though the adjacent comment and the spec promise the safe-parse (and hence
a never-`NaN`) behaviour. -/
theorem netEarnings_nan_on_null_costs :
    calculateNetEarningsPrevMonth (some nullCostsPerson) = "NaN EUR" ∧
    parseFloat "null" = none ∧
    parseSafeFloat (some "null") = 0 := by
  refine ⟨by decide, by decide, by decide⟩

/-- C2: `formatPercentage "0.855"` returns `"86%"`: the parsed value is
exactly 171/200, times 100 is 171/2 = 85.5, and the formatter rounds the
half up to 86. -/
theorem formatPercentage_half_up_0855 :
    formatPercentage (some "0.855") = "86%" ∧
    parseFloat "0.855" = some (mkRat 171 200) ∧
    qMulNat (mkRat 171 200) 100 = mkRat 171 2 ∧
    jsRound (mkRat 171 2) = 86 := by
  refine ⟨by decide, by decide, by decide, by decide⟩

/-- C3 counterexample: a record whose nested `statusAggregation.status` is
present and not `"active"` while its top-level `status` is `"active"` is
NOT dropped: it produces an output row, contradicting the claimed
nested-first precedence. -/
theorem selector_keeps_nested_inactive :
    (nestedInactiveRec.employees.bind PersonData.statusAggregation).bind
        StatusAggregation.status = some "inactive" ∧
    nestedInactiveRec.employees.bind PersonData.status = some "active" ∧
    (tableData [nestedInactiveRec]).length = 1 := by
  refine ⟨rfl, rfl, by decide⟩

/-- C3 (amended): for a record with a populated person sub-record, the
record survives the Selector iff nested `statusAggregation.status` equals
`"active"` OR the top-level `status` equals `"active"` — a plain
disjunction, with no precedence of the nested field over the top-level
one. -/
theorem selector_active_iff (r : SourceDataRow) (pd : PersonData)
    (h : jsOrObj r.employees r.externals = some pd) :
    ((tableData [r]).length = 1 ↔
      (pd.statusAggregation.bind StatusAggregation.status = some "active" ∨
        pd.status = some "active")) := by
  have hp : (jsOrObj r.employees r.externals).isSome = true := by rw [h]; rfl
  have hact : isActiveRow r
      = ((pd.statusAggregation.bind StatusAggregation.status == some "active")
        || (pd.status == some "active")) := by
    simp [isActiveRow, h]
  rw [tableData_cons, tableData_nil, if_pos hp, List.append_nil]
  have hiso := processRow_isSome r
  cases hpr : processRow r with
  | none =>
    rw [hpr] at hiso
    have hfalse : ((pd.statusAggregation.bind StatusAggregation.status == some "active")
        || (pd.status == some "active")) = false := by rw [← hact, ← hiso]; rfl
    rw [Bool.or_eq_false_iff] at hfalse
    apply iff_of_false
    · simp
    · rintro (h1 | h1)
      · rw [beq_eq_false_iff_ne] at hfalse
        exact absurd h1 hfalse.1
      · have := hfalse.2
        rw [beq_eq_false_iff_ne] at this
        exact absurd h1 this
  | some row =>
    rw [hpr] at hiso
    have htrue : ((pd.statusAggregation.bind StatusAggregation.status == some "active")
        || (pd.status == some "active")) = true := by rw [← hact, ← hiso]; rfl
    rw [Bool.or_eq_true] at htrue
    apply iff_of_true
    · rfl
    · rcases htrue with h1 | h1
      · exact Or.inl (eq_of_beq h1)
      · exact Or.inr (eq_of_beq h1)

/-- C3 witness: a record with no nested status and top-level status
`"active"` survives. -/
theorem selector_active_iff_witness : (tableData [topActiveRec]).length = 1 :=
  (selector_active_iff topActiveRec topActivePerson rfl).mpr (Or.inr rfl)

/-- C4: the output row count equals exactly the number of source records
that hold an `employees` or `externals` object and are active; hence it
never exceeds the source record count. -/
theorem tableData_count_spec (sourceData : List SourceDataRow) :
    (tableData sourceData).length =
      sourceData.countP (fun r => (r.employees.isSome || r.externals.isSome) && isActiveRow r) ∧
    (tableData sourceData).length ≤ sourceData.length := by
  have hmain : ∀ l : List SourceDataRow, (tableData l).length =
      l.countP (fun r => (r.employees.isSome || r.externals.isSome) && isActiveRow r) := by
    intro l
    induction l with
    | nil => rfl
    | cons r rest ih =>
      rw [tableData_cons, List.length_append, ih, List.countP_cons]
      suffices hhead :
          (if (jsOrObj r.employees r.externals).isSome then (processRow r).toList
            else []).length
          = (if ((r.employees.isSome || r.externals.isSome) && isActiveRow r) = true
              then 1 else 0) by omega
      have hiso := processRow_isSome r
      cases hpr : processRow r with
      | none =>
        rw [hpr] at hiso
        simp [← hiso]
      | some row =>
        rw [hpr] at hiso
        have hsome : (jsOrObj r.employees r.externals).isSome = true :=
          isActive_hasPerson r hiso.symm
        have hor : (r.employees.isSome || r.externals.isSome) = true := by
          rw [← jsOrObj_isSome]; exact hsome
        simp [hsome, hor, ← hiso]
  exact ⟨hmain sourceData, by rw [hmain sourceData]; exact List.countP_le_length _⟩

/-- C5: on a series whose last month parses as `"YYYY-MM"`, the label used
for the previous-month lookup is that month minus exactly one calendar
month, formatted `"YYYY-MM"`, with year rollover at January; in particular
`"2024-07" ↦ "2024-06"` and `"2024-01" ↦ "2023-12"`. -/
theorem prevMonth_label_spec (s : String) (y : ℤ) (m : Nat)
    (h1 : 1 ≤ m) (h2 : m ≤ 12)
    (hp : dayjsParse s = some ⟨y, m - 1⟩) :
    subtractOneMonthFormatted s =
      (if m = 1 then dayjsFormatYYYYMM ⟨y - 1, 11⟩ else dayjsFormatYYYYMM ⟨y, m - 2⟩) ∧
    subtractOneMonthFormatted "2024-07" = "2024-06" ∧
    subtractOneMonthFormatted "2024-01" = "2023-12" := by
  refine ⟨?_, by decide, by decide⟩
  simp only [subtractOneMonthFormatted, hp]
  have hsub : DayjsDate.subtractMonths ⟨y, m - 1⟩ 1
      = if m = 1 then (⟨y - 1, 11⟩ : DayjsDate) else ⟨y, m - 2⟩ := by
    by_cases hm : m = 1
    · subst hm
      rw [if_pos rfl]
      simp only [DayjsDate.subtractMonths, DayjsDate.mk.injEq]
      constructor <;> omega
    · rw [if_neg hm]
      simp only [DayjsDate.subtractMonths, DayjsDate.mk.injEq]
      constructor <;> omega
  rw [hsub]
  exact apply_ite dayjsFormatYYYYMM _ _ _

/-- C5 witness: instantiation at the series month `"2024-03"`. -/
theorem prevMonth_label_spec_witness :
    subtractOneMonthFormatted "2024-03" =
      (if (3 : Nat) = 1 then dayjsFormatYYYYMM ⟨(2024 : ℤ) - 1, 11⟩
        else dayjsFormatYYYYMM ⟨(2024 : ℤ), 3 - 2⟩) ∧
    subtractOneMonthFormatted "2024-07" = "2024-06" ∧
    subtractOneMonthFormatted "2024-01" = "2023-12" :=
  prevMonth_label_spec "2024-03" 2024 3 (by decide) (by decide) (by decide)

/-- C6 counterexample: with a previous-month entry whose `costs` is the
present, non-empty, unparseable string `"abc"`, the function returns
`"NaN EUR"` — neither the sentinel (the series is non-empty with a valid
last month) nor a number formatted to two decimal places. -/
theorem netEarnings_nan_not_two_decimal :
    calculateNetEarningsPrevMonth (some abcCostsPerson) = "NaN EUR" ∧
    earningsDataArrayOf (some abcCostsPerson) ≠ [] ∧
    lastEntryLacksMonth (earningsDataArrayOf (some abcCostsPerson)) = false ∧
    isTwoDecimalEur "NaN EUR" = false ∧
    ("NaN EUR" : String) ≠ "- EUR" := by
  refine ⟨by decide, by decide, by decide, by decide, by decide⟩

/-- C6 (amended): `calculateNetEarningsPrevMonth` returns `"- EUR"` iff
the selected series is empty or its last entry lacks a month value; in
every other case it returns the `toFixed(2)` rendering of the net earnings
suffixed `" EUR"`, which is a two-decimal numeral except that it is
`"NaN EUR"` when the matched previous-month `costs` string is present,
non-empty and unparseable. -/
theorem netEarnings_sentinel_iff (p : Option PersonData) :
    (calculateNetEarningsPrevMonth p = "- EUR" ↔
      (earningsDataArrayOf p = [] ∨
        lastEntryLacksMonth (earningsDataArrayOf p) = true)) ∧
    (¬(earningsDataArrayOf p = [] ∨
        lastEntryLacksMonth (earningsDataArrayOf p) = true) →
      (isTwoDecimalEur (calculateNetEarningsPrevMonth p) = true ∨
        calculateNetEarningsPrevMonth p = "NaN EUR")) := by
  rcases calc_cases p with ⟨hc, hl⟩ | ⟨⟨v, hv⟩, hl⟩
  · constructor
    · exact iff_of_true hc (Or.inr hl)
    · intro hcon; exact absurd (Or.inr hl) hcon
  · constructor
    · apply iff_of_false
      · rw [hv]; exact jsToFixed_two_append_ne v
      · rintro (h | h)
        · rw [h] at hl
          cases hl
        · rw [h] at hl
          cases hl
    · intro _
      rw [hv]
      cases v with
      | none => exact Or.inr rfl
      | some x => exact Or.inl (isTwoDecimalEur_toFixedQ x)

/-- C6 witness: on the spec's running example the result is a two-decimal
numeral with `" EUR"` suffix. -/
theorem netEarnings_sentinel_iff_witness :
    isTwoDecimalEur (calculateNetEarningsPrevMonth (some goodPerson)) = true ∨
    calculateNetEarningsPrevMonth (some goodPerson) = "NaN EUR" :=
  (netEarnings_sentinel_iff (some goodPerson)).2 (by decide)

/-- C7: for every surviving record, the `june` / `july` / `august` output
fields are the percentage-formatted `utilisationRate` at indices 2 / 1 / 0
of `lastThreeMonthsIndividually`; an absent index yields `"N/A"`; on rates
0.9/0.8/0.7 (newest first) the row is august 90%, july 80%, june 70%. -/
theorem monthColumns_spec :
    (∀ r row, processRow r = some row →
      row.june = formatPercentage
        (((lastThreeOf r).get? 2).bind UtilisationMonthEntry.utilisationRate) ∧
      row.july = formatPercentage
        (((lastThreeOf r).get? 1).bind UtilisationMonthEntry.utilisationRate) ∧
      row.august = formatPercentage
        (((lastThreeOf r).get? 0).bind UtilisationMonthEntry.utilisationRate)) ∧
    (∀ r row, processRow r = some row → (lastThreeOf r).get? 2 = none →
      row.june = "N/A") ∧
    tableData [ratesRec] = [ratesRow] := by
  have hmain : ∀ r row, processRow r = some row →
      row.june = formatPercentage
        (((lastThreeOf r).get? 2).bind UtilisationMonthEntry.utilisationRate) ∧
      row.july = formatPercentage
        (((lastThreeOf r).get? 1).bind UtilisationMonthEntry.utilisationRate) ∧
      row.august = formatPercentage
        (((lastThreeOf r).get? 0).bind UtilisationMonthEntry.utilisationRate) := by
    intro r row h
    by_cases ha : isActiveRow r = true
    · simp only [processRow, ha, Bool.not_true, Bool.false_eq_true, if_false,
        Option.some.injEq] at h
      subst h
      exact ⟨rfl, rfl, rfl⟩
    · have ha' : isActiveRow r = false := by
        cases hb : isActiveRow r
        · rfl
        · exact absurd hb ha
      simp [processRow, ha'] at h
  refine ⟨hmain, ?_, by decide⟩
  intro r row h hnone
  have hj := (hmain r row h).1
  rw [hnone] at hj
  exact hj.trans rfl

/-- C7 witness: instantiation at the concrete rates record. -/
theorem monthColumns_spec_witness :
    ratesRow.june = formatPercentage
      (((lastThreeOf ratesRec).get? 2).bind UtilisationMonthEntry.utilisationRate) ∧
    ratesRow.july = formatPercentage
      (((lastThreeOf ratesRec).get? 1).bind UtilisationMonthEntry.utilisationRate) ∧
    ratesRow.august = formatPercentage
      (((lastThreeOf ratesRec).get? 0).bind UtilisationMonthEntry.utilisationRate) :=
  monthColumns_spec.1 ratesRec ratesRow (by decide)

/-- C8 counterexample: `formatPercentage "-0.002"` returns `"-0%"`:
-0.002·100 = -0.2 rounds to the whole number 0, whose decimal numeral with
`"%"` appended would be `"0%"`, but JS `toFixed` renders the negative sign
first, so the code yields `"-0%"`. -/
theorem formatPercentage_minus_zero :
    formatPercentage (some "-0.002") = "-0%" ∧
    parseFloat "-0.002" = some (mkRat (-1) 500) ∧
    jsRound (qMulNat (mkRat (-1) 500) 100) = 0 ∧
    ("-0%" : String) ≠ "0%" := by
  refine ⟨by decide, by decide, by decide, by decide⟩

/-- C8 (amended): `formatPercentage` returns `"N/A"` on null/undefined,
`"-"` on an unparseable string, and otherwise the input times 100 rounded
to the nearest whole number with `"%"` appended — rendered as JS
`toFixed(0)` renders it: the sign of a negative input is emitted first, so
a negative value rounding to zero yields `"-0%"`. -/
theorem formatPercentage_spec :
    formatPercentage none = "N/A" ∧
    (∀ s, parseFloat s = none → formatPercentage (some s) = "-") ∧
    (∀ s q, parseFloat s = some q →
      |q * 100 - (jsRound (q * 100) : ℚ)| ≤ 1 / 2 ∧
      formatPercentage (some s)
        = (if q < 0 then "-" else "") ++ natRepr (jsRound (q * 100)).natAbs ++ "%") := by
  refine ⟨rfl, ?_, ?_⟩
  · intro s h
    simp only [formatPercentage, h]
  · intro s q h
    refine ⟨jsRound_nearest _, ?_⟩
    simp only [formatPercentage, h]
    rw [qMulNat_eq, toFixedQ_zero_eq]
    have hc : (((100 : Nat)) : ℚ) = (100 : ℚ) := by norm_cast
    rw [hc]
    have hiff : (q * (100 : ℚ) < 0) = (q < 0) := by
      apply propext
      constructor <;> intro h0 <;> linarith
    simp only [hiff]

/-- C8 witness: instantiation at `"0.8534"`, whose value is 4267/5000. -/
theorem formatPercentage_spec_witness :
    |(mkRat 4267 5000) * 100 - (jsRound ((mkRat 4267 5000) * 100) : ℚ)| ≤ 1 / 2 ∧
    formatPercentage (some "0.8534")
      = (if (mkRat 4267 5000 : ℚ) < 0 then "-" else "")
        ++ natRepr (jsRound ((mkRat 4267 5000) * 100)).natAbs ++ "%" :=
  formatPercentage_spec.2.2 "0.8534" (mkRat 4267 5000) (by decide)

/-- C9: the safe float parser returns 0 on null/undefined, the literal
string `"null"`, empty/whitespace-only strings and unparseable strings,
and otherwise the parsed value; in particular `"3.5"` parses to 7/2. -/
theorem parseSafeFloat_spec :
    parseSafeFloat none = 0 ∧
    parseSafeFloat (some "null") = 0 ∧
    (∀ s, jsTrim s = "" → parseSafeFloat (some s) = 0) ∧
    (∀ s, parseFloat s = none → parseSafeFloat (some s) = 0) ∧
    (∀ s q, parseFloat s = some q → parseSafeFloat (some s) = q) ∧
    parseSafeFloat (some "3.5") = mkRat 7 2 := by
  refine ⟨rfl, by decide, ?_, ?_, ?_, by decide⟩
  · intro s hs
    simp only [parseSafeFloat]
    rw [if_pos (Or.inr hs)]
  · intro s hpf
    by_cases hcond : s = "null" ∨ jsTrim s = ""
    · simp only [parseSafeFloat]
      rw [if_pos hcond]
    · simp only [parseSafeFloat]
      rw [if_neg hcond, hpf]
  · intro s q hpf
    have hnull : ¬(s = "null") := by
      intro heq
      rw [heq] at hpf
      have hn : parseFloat "null" = none := by decide
      rw [hn] at hpf
      cases hpf
    have htrim : ¬(jsTrim s = "") := by
      intro heq
      rw [parseFloat_of_trim_empty s heq] at hpf
      cases hpf
    simp only [parseSafeFloat]
    rw [if_neg (by rintro (hh | hh); exact hnull hh; exact htrim hh), hpf]

/-- C9 witness: instantiation at `"2.75"`. -/
theorem parseSafeFloat_spec_witness : parseSafeFloat (some "2.75") = mkRat 11 4 :=
  parseSafeFloat_spec.2.2.2.2.1 "2.75" (mkRat 11 4) (by decide)

/-- C10: when both the `employees` and the `externals` sub-records are
populated, the pipeline behaves exactly as if only `employees` were
populated: the `externals` sub-record is ignored entirely. -/
theorem employees_shadow_externals (pe px : PersonData) :
    processRow { employees := some pe, externals := some px }
      = processRow { employees := some pe, externals := none } ∧
    tableData [{ employees := some pe, externals := some px }]
      = tableData [{ employees := some pe, externals := none }] := by
  constructor <;> rfl
